import Mathlib

/-!
Shallow embedding of `tariffhunter/core/origin_analyzer.py` (class `OriginAnalyzer`).

Python strings are modelled as `List Char`; Python floats as exact rationals `ℚ`
(decimal literals such as `0.7` become `7/10`).  The two external collaborators
are passed in as functions:

* the sentence-embedding backend is a function
  `backend : List Char → Except Unit (List ℚ)` returning, for the analysed text,
  the list of cosine similarities against the nine fixed China phrases
  (`util.cos_sim(text_embedding, phrase_embeddings)[0]`); a `.error` value
  models any exception raised inside the `try` block's embedding step;
* the place-name recognizer (`GeoText`) is a function
  `geo : List Char → List (List Char × List (List Char))`, an ordered
  association list from country code to the recognized place names for that
  country (the Python code iterates `GeoText(text).countries.items()` and calls
  `.get('cn', [])` on it).

Everything else is translated directly from the source.
-/

namespace OriginAnalyzer

/-- Python `\w` for the patterns used here: word characters. -/
def isWordChar (c : Char) : Bool := c.isAlphanum || c = '_'

/-- Python `\s`: the whitespace class `[ \t\n\r\f\v]`. -/
def isSpaceChar (c : Char) : Bool :=
  c = ' ' || c = '\t' || c = '\n' || c = '\r' || c = '\x0c' || c = '\x0b'

/-- Python `str.strip()`: drop leading and trailing whitespace. -/
def stripChars (s : List Char) : List Char :=
  ((s.dropWhile isSpaceChar).reverse.dropWhile isSpaceChar).reverse

/-- `OriginAnalyzer._clean_text`: `text.lower().strip()` followed by
`re.sub(r'[^\w\s]', '', text)` (remove punctuation). -/
def clean_text (s : List Char) : List Char :=
  (stripChars (s.map Char.toLower)).filter (fun c => isWordChar c || isSpaceChar c)

/-- Python's substring test `needle in haystack` on strings. -/
def containsSub (needle : List Char) : List Char → Bool
  | [] => needle.isEmpty
  | c :: rest => needle.isPrefixOf (c :: rest) || containsSub needle rest

/-- `china_phrases` (local constant inside `_detect_china_origin`). -/
def china_phrases : List (List Char) :=
  ["made in china".toList, "manufactured in china".toList, "product of china".toList,
   "shenzhen".toList, "guangzhou".toList, "yiwu".toList, "chinese supplier".toList,
   "factory in china".toList, "produced in china".toList]

/-- `self.china_provinces`. -/
def china_provinces : List (List Char) :=
  ["guangdong".toList, "zhejiang".toList, "jiangsu".toList, "shandong".toList,
   "fujian".toList, "shanghai".toList, "beijing".toList, "tianjin".toList,
   "chongqing".toList, "sichuan".toList]

/-- `self.factory_keywords`. -/
def factory_keywords : List (List Char) :=
  ["factory".toList, "manufacturer".toList, "facility".toList, "works".toList,
   "plant".toList]

/-- `self.supplier_keywords`. -/
def supplier_keywords : List (List Char) :=
  ["supplier".toList, "vendor".toList, "distributor".toList, "wholesaler".toList]

/-- `keyword_score = sum(1 for kw in china_phrases if kw in text.lower()) / len(china_phrases)`. -/
def keyword_score (text : List Char) : ℚ :=
  ((china_phrases.filter (fun kw => containsSub kw (text.map Char.toLower))).length : ℚ)
    / (china_phrases.length : ℚ)

/-- `combined_score = 0.7 * max_similarity + 0.3 * keyword_score`. -/
def combined_score (text : List Char) (max_similarity : ℚ) : ℚ :=
  7/10 * max_similarity + 3/10 * keyword_score text

/-- The dict returned by `_detect_china_origin`. -/
structure ChinaOrigin where
  made_in_china : List Char
  confidence : ℚ
deriving DecidableEq

/-- `OriginAnalyzer._detect_china_origin`.  The whole body sits inside
`try/except`; the only fallible operations are the embedding/`torch` calls,
so the backend's `.error` outcome (and the degenerate empty similarity list,
on which `torch.max` raises) land in the `except` branch, which returns
`{"made_in_china": "Unknown", "confidence": 0}`. -/
def detect_china_origin (backend : List Char → Except Unit (List ℚ))
    (text : List Char) : ChinaOrigin :=
  match backend text with
  | .error _ => ⟨"Unknown".toList, 0⟩
  | .ok [] => ⟨"Unknown".toList, 0⟩
  | .ok (s :: rest) =>
    let max_similarity : ℚ := rest.foldl max s
    let c := combined_score text max_similarity
    if 13/20 < c then ⟨"Yes".toList, c⟩
    else if 2/5 < c then ⟨"Unclear".toList, c⟩
    else ⟨"No".toList, 1 - c⟩

/-- `places.countries.get(code, [])` on the modelled GeoText result. -/
def geoLookup (countries : List (List Char × List (List Char))) (code : List Char) :
    List (List Char) :=
  match countries.find? (fun p => p.1 = code) with
  | some p => p.2
  | none => []

/-- One literal alternative of an origin pattern: match the literal
case-insensitively, then greedily capture `([\w\s]+)` (at least one char). -/
def ciPrefixMatch : List Char → List Char → Option (List Char)
  | [], s => some s
  | _ :: _, [] => none
  | l :: ls, c :: cs => if c.toLower = l.toLower then ciPrefixMatch ls cs else none

/-- Try to match `lit` followed by a nonempty greedy `[\w\s]+` capture at the
head of `s`; return the capture and the remainder of the text. -/
def captureAt (lit s : List Char) : Option (List Char × List Char) :=
  match ciPrefixMatch lit s with
  | none => none
  | some rest =>
    let cap := rest.takeWhile (fun c => isWordChar c || isSpaceChar c)
    if cap.isEmpty then none else some (cap, rest.drop cap.length)

/-- Try the alternatives of a pattern in order (regex `?` prefers the longer
literal first, as in `origin:? `). -/
def captureAlts (lits : List (List Char)) (s : List Char) :
    Option (List Char × List Char) :=
  match lits with
  | [] => none
  | l :: ls =>
    match captureAt l s with
    | some r => some r
    | none => captureAlts ls s

/-- `re.findall(pattern, text, re.IGNORECASE)` for patterns of the shape
`literal([\w\s]+)`: scan left to right, take non-overlapping leftmost matches,
return the captures.  Recursion is bounded by the text length (every match
consumes at least one character). -/
def findallAux (lits : List (List Char)) : Nat → List Char → List (List Char)
  | 0, _ => []
  | _, [] => []
  | fuel + 1, c :: rest =>
    match captureAlts lits (c :: rest) with
    | some (cap, after) => cap :: findallAux lits fuel after
    | none => findallAux lits fuel rest

def findall (lits : List (List Char)) (s : List Char) : List (List Char) :=
  findallAux lits s.length s

/-- The six regex patterns of `_extract_origin_phrases`, each as its ordered
list of literal alternatives (`origin:? ` expands to `origin: ` then
`origin `). -/
def origin_patterns : List (List (List Char)) :=
  [["made in ".toList], ["manufactured in ".toList], ["produced in ".toList],
   ["factory in ".toList], ["origin: ".toList, "origin ".toList],
   ["sourced from ".toList]]

/-- `OriginAnalyzer._extract_origin_phrases`: run the six patterns in order
extending one match list, then `"; ".join(set(matches)) if matches else None`.
CPython's `set` iteration order is implementation-defined but fixed within a
process; it is modelled by the deterministic `List.dedup`. -/
def extract_origin_phrases (text : List Char) : Option (List Char) :=
  let ms := origin_patterns.foldl (fun acc p => acc ++ findall p text) []
  if ms.isEmpty then none
  else some (List.intercalate "; ".toList ms.dedup)

/-- `OriginAnalyzer._detect_production_type`. -/
def detect_production_type (text : List Char) : List Char :=
  if containsSub "oem".toList text then "OEM".toList
  else if containsSub "odm".toList text then "ODM".toList
  else if ["private label".toList, "white label".toList].any
      (fun kw => containsSub kw text) then "Private Label".toList
  else "Unknown".toList

/-- `OriginAnalyzer._estimate_supplier_tier`. -/
def estimate_supplier_tier (text : List Char) : List Char :=
  if ["manufacturer".toList, "factory".toList].any (fun kw => containsSub kw text) then
    "Tier 1 (Manufacturer)".toList
  else if ["trading company".toList, "export company".toList].any
      (fun kw => containsSub kw text) then "Tier 2 (Trading Company)".toList
  else if ["distributor".toList, "wholesaler".toList].any
      (fun kw => containsSub kw text) then "Tier 3 (Distributor)".toList
  else "Unknown".toList

/-- The dict returned by `_detect_chinese_details`. -/
structure ChineseDetails where
  likely_province : Option (List Char)
  factory_mentioned : Bool
  supplier_mentioned : Bool
  origin_phrases : Option (List Char)
  production_type : List Char
  supplier_tier : List Char
deriving DecidableEq

/-- `OriginAnalyzer._detect_chinese_details`. -/
def detect_chinese_details (geo : List Char → List (List Char × List (List Char)))
    (text : List Char) : ChineseDetails :=
  let places := geo text
  { likely_province :=
      ((geoLookup places "cn".toList).map (fun p => p.map Char.toLower)).find?
        (fun p => china_provinces.contains p)
    factory_mentioned := factory_keywords.any (fun kw => containsSub kw text)
    supplier_mentioned := supplier_keywords.any (fun kw => containsSub kw text)
    origin_phrases := extract_origin_phrases text
    production_type := detect_production_type text
    supplier_tier := estimate_supplier_tier text }

/-- The dict returned by `_detect_other_origin`: either a country with its
city mentions, or `{"likely_country": "Unknown"}` (no cities key). -/
structure OtherOrigin where
  likely_country : List Char
  likely_cities : Option (List (List Char))
deriving DecidableEq

/-- `OriginAnalyzer._detect_other_origin`: the first listed country whose
lowered code is not `cn`, with its cities; else `Unknown`.  (The Python
`if countries:` guard is redundant: the loop over an empty dict also falls
through to the final return.) -/
def detect_other_origin (countries : List (List Char × List (List Char))) :
    OtherOrigin :=
  match countries.find? (fun p => decide (p.1.map Char.toLower ≠ "cn".toList)) with
  | some p => ⟨p.1, some p.2⟩
  | none => ⟨"Unknown".toList, none⟩

/-- The merged dict `{**origin_result, **details}` returned by
`analyze_origin`; the detail bundle's shape depends on the branch taken. -/
inductive Details
  | chinese (d : ChineseDetails)
  | other (d : OtherOrigin)
deriving DecidableEq

structure AnalysisResult where
  made_in_china : List Char
  confidence : ℚ
  details : Details
deriving DecidableEq

/-- `OriginAnalyzer.analyze_origin`. -/
def analyze_origin (backend : List Char → Except Unit (List ℚ))
    (geo : List Char → List (List Char × List (List Char)))
    (title description : List Char) : AnalysisResult :=
  let text := clean_text (title ++ ' ' :: description)
  let origin := detect_china_origin backend text
  if origin.made_in_china = "Yes".toList then
    ⟨origin.made_in_china, origin.confidence, .chinese (detect_chinese_details geo text)⟩
  else
    ⟨origin.made_in_china, origin.confidence, .other (detect_other_origin (geo text))⟩

/-! ### Basic lemmas about the embedded operations -/

/-- `containsSub` decides the substring (infix) relation, so the Python
`kw in text` test is exactly "kw occurs as an exact substring of text". -/
theorem containsSub_infix_iff (n : List Char) :
    ∀ h : List Char, containsSub n h = true ↔ n <:+: h := by
  intro h
  induction h with
  | nil => simp [containsSub, List.isEmpty_iff, List.infix_nil]
  | cons c rest ih =>
    simp [containsSub, Bool.or_eq_true, ih, List.infix_cons_iff,
      List.isPrefixOf_iff_prefix]

theorem containsSub_eq_decide (n h : List Char) :
    containsSub n h = decide (n <:+: h) := by
  rw [Bool.eq_iff_iff]
  simp [containsSub_infix_iff]

theorem foldl_max_bounds (lo hi : ℚ) (l : List ℚ) :
    ∀ a : ℚ, lo ≤ a → a ≤ hi → (∀ x ∈ l, lo ≤ x ∧ x ≤ hi) →
      lo ≤ l.foldl max a ∧ l.foldl max a ≤ hi := by
  induction l with
  | nil => intro a h1 h2 _; exact ⟨h1, h2⟩
  | cons x xs ih =>
    intro a h1 h2 hall
    have hx := hall x (List.mem_cons_self _ _)
    simp only [List.foldl_cons]
    exact ih (max a x) (le_trans h1 (le_max_left _ _)) (max_le h2 hx.2)
      (fun y hy => hall y (List.mem_cons_of_mem _ hy))

theorem keyword_score_nonneg (text : List Char) : 0 ≤ keyword_score text := by
  unfold keyword_score
  positivity

theorem keyword_score_le_one (text : List Char) : keyword_score text ≤ 1 := by
  unfold keyword_score
  rw [div_le_one (by norm_num [china_phrases])]
  exact_mod_cast List.length_filter_le _ _

theorem detect_china_origin_err (backend : List Char → Except Unit (List ℚ))
    (text : List Char) (e : Unit) (hb : backend text = .error e) :
    detect_china_origin backend text = ⟨"Unknown".toList, 0⟩ := by
  unfold detect_china_origin
  rw [hb]

theorem detect_china_origin_ok (backend : List Char → Except Unit (List ℚ))
    (text : List Char) (s : ℚ) (rest : List ℚ)
    (hb : backend text = .ok (s :: rest)) :
    detect_china_origin backend text =
      if 13/20 < combined_score text (List.foldl max s rest) then
        ⟨"Yes".toList, combined_score text (List.foldl max s rest)⟩
      else if 2/5 < combined_score text (List.foldl max s rest) then
        ⟨"Unclear".toList, combined_score text (List.foldl max s rest)⟩
      else ⟨"No".toList, 1 - combined_score text (List.foldl max s rest)⟩ := by
  unfold detect_china_origin
  rw [hb]

/-- The primary outcome and the confidence of `analyze_origin` are exactly
those of `_detect_china_origin` on the normalized concatenated text. -/
theorem analyze_origin_made_confidence (backend : List Char → Except Unit (List ℚ))
    (geo : List Char → List (List Char × List (List Char)))
    (title description : List Char) :
    (analyze_origin backend geo title description).made_in_china
        = (detect_china_origin backend (clean_text (title ++ ' ' :: description))).made_in_china ∧
    (analyze_origin backend geo title description).confidence
        = (detect_china_origin backend (clean_text (title ++ ' ' :: description))).confidence := by
  simp only [analyze_origin]
  by_cases hy : (detect_china_origin backend (clean_text (title ++ ' ' :: description))).made_in_china = "Yes".toList
  · rw [if_pos hy]; exact ⟨rfl, rfl⟩
  · rw [if_neg hy]; exact ⟨rfl, rfl⟩

/-- The detail bundle of `analyze_origin`: Chinese details on `Yes`,
other-origin details otherwise. -/
theorem analyze_origin_details (backend : List Char → Except Unit (List ℚ))
    (geo : List Char → List (List Char × List (List Char)))
    (title description : List Char) :
    (analyze_origin backend geo title description).details =
      if (detect_china_origin backend (clean_text (title ++ ' ' :: description))).made_in_china
          = "Yes".toList
      then .chinese (detect_chinese_details geo (clean_text (title ++ ' ' :: description)))
      else .other (detect_other_origin (geo (clean_text (title ++ ' ' :: description)))) := by
  simp only [analyze_origin]
  by_cases hy : (detect_china_origin backend (clean_text (title ++ ' ' :: description))).made_in_china = "Yes".toList
  · rw [if_pos hy, if_pos hy]
  · rw [if_neg hy, if_neg hy]

end OriginAnalyzer

namespace OriginAnalyzer

theorem detect_china_origin_ok_nil (backend : List Char → Except Unit (List ℚ))
    (text : List Char) (hb : backend text = .ok []) :
    detect_china_origin backend text = ⟨"Unknown".toList, 0⟩ := by
  unfold detect_china_origin
  rw [hb]

theorem keyword_score_eq_zero (text : List Char)
    (h0 : (china_phrases.filter
      (fun kw => containsSub kw (text.map Char.toLower))).length = 0) :
    keyword_score text = 0 := by
  unfold keyword_score
  rw [h0]
  norm_num

/-- C1: for every input pair (title, description), letting C be the combined
score computed from the normalized concatenated text, the primary outcome and
confidence are exactly: C > 0.65 gives `Yes` with confidence C;
0.4 < C ≤ 0.65 gives `Unclear` with confidence C; otherwise `No` with
confidence 1 - C. -/
theorem C1_threshold_outcomes (backend : List Char → Except Unit (List ℚ))
    (geo : List Char → List (List Char × List (List Char)))
    (title description : List Char) (s : ℚ) (rest : List ℚ)
    (hb : backend (clean_text (title ++ ' ' :: description)) = .ok (s :: rest)) :
    (13/20 < combined_score (clean_text (title ++ ' ' :: description)) (List.foldl max s rest) →
      (analyze_origin backend geo title description).made_in_china = "Yes".toList ∧
      (analyze_origin backend geo title description).confidence
        = combined_score (clean_text (title ++ ' ' :: description)) (List.foldl max s rest)) ∧
    (2/5 < combined_score (clean_text (title ++ ' ' :: description)) (List.foldl max s rest) ∧
        combined_score (clean_text (title ++ ' ' :: description)) (List.foldl max s rest) ≤ 13/20 →
      (analyze_origin backend geo title description).made_in_china = "Unclear".toList ∧
      (analyze_origin backend geo title description).confidence
        = combined_score (clean_text (title ++ ' ' :: description)) (List.foldl max s rest)) ∧
    (combined_score (clean_text (title ++ ' ' :: description)) (List.foldl max s rest) ≤ 2/5 →
      (analyze_origin backend geo title description).made_in_china = "No".toList ∧
      (analyze_origin backend geo title description).confidence
        = 1 - combined_score (clean_text (title ++ ' ' :: description)) (List.foldl max s rest)) := by
  obtain ⟨hm, hc⟩ := analyze_origin_made_confidence backend geo title description
  rw [hm, hc, detect_china_origin_ok backend _ s rest hb]
  refine ⟨?_, ?_, ?_⟩
  · intro h
    rw [if_pos h]
    exact ⟨rfl, rfl⟩
  · intro h
    rw [if_neg (by linarith [h.2]), if_pos h.1]
    exact ⟨rfl, rfl⟩
  · intro h
    rw [if_neg (by linarith), if_neg (by linarith)]
    exact ⟨rfl, rfl⟩

theorem C1_witness :
    (analyze_origin (fun _ => .ok [(1 : ℚ)]) (fun _ => []) "a".toList "b".toList).made_in_china
      = "Yes".toList ∧
    (analyze_origin (fun _ => .ok [(1 : ℚ)]) (fun _ => []) "a".toList "b".toList).confidence
      = 7/10 := by
  have hk : keyword_score (clean_text ("a".toList ++ ' ' :: "b".toList)) = 0 :=
    keyword_score_eq_zero _ (by decide)
  have hC : combined_score (clean_text ("a".toList ++ ' ' :: "b".toList))
      (List.foldl max 1 []) = 7/10 := by
    simp only [combined_score, List.foldl_nil, hk]
    norm_num
  have h := (C1_threshold_outcomes (fun _ => .ok [(1 : ℚ)]) (fun _ => [])
    "a".toList "b".toList 1 [] rfl).1 (by rw [hC]; norm_num)
  exact ⟨h.1, by rw [h.2, hC]⟩

/-- C2 counterexample: the claim "confidence always lies in [0,1]" fails.
With a backend similarity value of -1 (which is in [-1,1]) and a text with no
China phrases, the combined score is -0.7, the `No` branch fires, and the
returned confidence is 1 - (-0.7) = 1.7 > 1. -/
theorem C2_counterexample :
    (∀ x ∈ [(-1 : ℚ)], -1 ≤ x ∧ x ≤ 1) ∧
    1 < (analyze_origin (fun _ => .ok [(-1 : ℚ)]) (fun _ => []) "xyz".toList "".toList).confidence := by
  constructor
  · intro x hx
    rw [List.mem_singleton] at hx
    subst hx
    constructor <;> norm_num
  · obtain ⟨_, hc⟩ := analyze_origin_made_confidence (fun _ => .ok [(-1 : ℚ)]) (fun _ => [])
      "xyz".toList "".toList
    rw [hc, detect_china_origin_ok _ _ (-1) [] rfl]
    have hk : keyword_score (clean_text ("xyz".toList ++ ' ' :: "".toList)) = 0 :=
      keyword_score_eq_zero _ (by decide)
    have hC : combined_score (clean_text ("xyz".toList ++ ' ' :: "".toList))
        (List.foldl max (-1) []) = -(7/10) := by
      simp only [combined_score, List.foldl_nil, hk]
      norm_num
    rw [hC, if_neg (by norm_num), if_neg (by norm_num)]
    norm_num

/-- C2 (amended): for every input pair and every similarity list with values
in [-1,1] returned by the embedding backend, the confidence lies in the closed
interval [0, 1.7]; if all similarity values are additionally nonnegative, the
confidence lies in [0,1]. -/
theorem C2_confidence_bounds (backend : List Char → Except Unit (List ℚ))
    (geo : List Char → List (List Char × List (List Char)))
    (title description : List Char) (sims : List ℚ)
    (hb : backend (clean_text (title ++ ' ' :: description)) = .ok sims)
    (hs : ∀ x ∈ sims, -1 ≤ x ∧ x ≤ 1) :
    (0 ≤ (analyze_origin backend geo title description).confidence ∧
      (analyze_origin backend geo title description).confidence ≤ 17/10) ∧
    ((∀ x ∈ sims, 0 ≤ x) →
      (analyze_origin backend geo title description).confidence ≤ 1) := by
  obtain ⟨hm, hc⟩ := analyze_origin_made_confidence backend geo title description
  rw [hc]
  cases sims with
  | nil =>
    rw [detect_china_origin_ok_nil _ _ hb]
    norm_num
  | cons s rest =>
    rw [detect_china_origin_ok _ _ s rest hb]
    have hbounds := foldl_max_bounds (-1) 1 rest s (hs s (by simp)).1 (hs s (by simp)).2
      (fun x hx => hs x (List.mem_cons_of_mem _ hx))
    have hK0 := keyword_score_nonneg (clean_text (title ++ ' ' :: description))
    have hK1 := keyword_score_le_one (clean_text (title ++ ' ' :: description))
    have key : (∀ x ∈ s :: rest, 0 ≤ x) → 0 ≤ List.foldl max s rest := fun hpos =>
      (foldl_max_bounds 0 1 rest s (hpos s (by simp)) (hs s (by simp)).2
        (fun x hx => ⟨hpos x (List.mem_cons_of_mem _ hx),
          (hs x (List.mem_cons_of_mem _ hx)).2⟩)).1
    simp only [combined_score]
    split_ifs with h1 h2 <;> dsimp only <;>
      refine ⟨⟨by linarith, by linarith⟩, fun hpos => by have := key hpos; linarith⟩

theorem C2_witness :
    (0 ≤ (analyze_origin (fun _ => .ok [(1/2 : ℚ)]) (fun _ => []) "a".toList "b".toList).confidence ∧
      (analyze_origin (fun _ => .ok [(1/2 : ℚ)]) (fun _ => []) "a".toList "b".toList).confidence ≤ 17/10) ∧
    ((∀ x ∈ [(1/2 : ℚ)], 0 ≤ x) →
      (analyze_origin (fun _ => .ok [(1/2 : ℚ)]) (fun _ => []) "a".toList "b".toList).confidence ≤ 1) :=
  C2_confidence_bounds (fun _ => .ok [(1/2 : ℚ)]) (fun _ => []) "a".toList "b".toList
    [(1/2 : ℚ)] rfl
    (by intro x hx; rw [List.mem_singleton] at hx; subst hx; constructor <;> norm_num)

/-- C3: if the embedding step fails (the backend returns an error), the
classifier returns outcome `Unknown` with confidence 0 (totality of the Lean
function models "no exception propagates"); and this is the only failure
path: on a successful embedding the outcome is never `Unknown`. -/
theorem C3_embedding_failure_unknown (backend : List Char → Except Unit (List ℚ))
    (geo : List Char → List (List Char × List (List Char)))
    (title description : List Char) :
    (∀ e : Unit, backend (clean_text (title ++ ' ' :: description)) = .error e →
      (analyze_origin backend geo title description).made_in_china = "Unknown".toList ∧
      (analyze_origin backend geo title description).confidence = 0) ∧
    (∀ (s : ℚ) (rest : List ℚ),
      backend (clean_text (title ++ ' ' :: description)) = .ok (s :: rest) →
      (analyze_origin backend geo title description).made_in_china ≠ "Unknown".toList) := by
  obtain ⟨hm, hc⟩ := analyze_origin_made_confidence backend geo title description
  constructor
  · intro e hb
    rw [hm, hc, detect_china_origin_err _ _ e hb]
    exact ⟨rfl, rfl⟩
  · intro s rest hb
    rw [hm, detect_china_origin_ok _ _ s rest hb]
    split_ifs <;> dsimp only <;> decide

theorem C3_witness :
    (analyze_origin (fun _ => .error ()) (fun _ => []) "a".toList "b".toList).made_in_china
      = "Unknown".toList ∧
    (analyze_origin (fun _ => .error ()) (fun _ => []) "a".toList "b".toList).confidence = 0 :=
  (C3_embedding_failure_unknown (fun _ => .error ()) (fun _ => []) "a".toList "b".toList).1 () rfl

/-- C8: given a deterministic embedding backend and a deterministic
place-name recognizer (both modelled as functions), classification is a pure
function of its two string inputs: identical (title, description) pairs yield
identical results, including the `origin_phrases` field built by de-duplicating
the regex matches and joining them with "; ". -/
theorem C8_deterministic (backend : List Char → Except Unit (List ℚ))
    (geo : List Char → List (List Char × List (List Char)))
    (title description title2 description2 : List Char)
    (ht : title = title2) (hd : description = description2) :
    analyze_origin backend geo title description
      = analyze_origin backend geo title2 description2 ∧
    extract_origin_phrases (clean_text (title ++ ' ' :: description))
      = extract_origin_phrases (clean_text (title2 ++ ' ' :: description2)) := by
  subst ht
  subst hd
  exact ⟨rfl, rfl⟩

theorem C8_witness :
    analyze_origin (fun _ => .error ()) (fun _ => []) "a".toList "b".toList
      = analyze_origin (fun _ => .error ()) (fun _ => []) "a".toList "b".toList ∧
    extract_origin_phrases (clean_text ("a".toList ++ ' ' :: "b".toList))
      = extract_origin_phrases (clean_text ("a".toList ++ ' ' :: "b".toList)) :=
  C8_deterministic (fun _ => .error ()) (fun _ => []) "a".toList "b".toList
    "a".toList "b".toList rfl rfl

/-- C10: for every input whose primary outcome is `No`, the returned
confidence is at least 0.6, since the `No` branch is taken only when the
combined score C is at most 0.4 and the confidence is then 1 - C. -/
theorem C10_no_confidence_lower_bound (backend : List Char → Except Unit (List ℚ))
    (geo : List Char → List (List Char × List (List Char)))
    (title description : List Char)
    (h : (analyze_origin backend geo title description).made_in_china = "No".toList) :
    3/5 ≤ (analyze_origin backend geo title description).confidence := by
  obtain ⟨hm, hc⟩ := analyze_origin_made_confidence backend geo title description
  rw [hc]
  rw [hm] at h
  cases hb : backend (clean_text (title ++ ' ' :: description)) with
  | error e =>
    rw [detect_china_origin_err _ _ e hb] at h
    exact absurd h (by decide)
  | ok sims =>
    cases sims with
    | nil =>
      rw [detect_china_origin_ok_nil _ _ hb] at h
      exact absurd h (by decide)
    | cons s rest =>
      rw [detect_china_origin_ok _ _ s rest hb] at h ⊢
      split_ifs at h ⊢ with h1 h2
      · exact absurd h (by dsimp only; decide)
      · exact absurd h (by dsimp only; decide)
      · dsimp only
        push_neg at h2
        linarith

theorem C10_witness :
    3/5 ≤ (analyze_origin (fun _ => .ok [(0 : ℚ)]) (fun _ => []) "a".toList "b".toList).confidence := by
  refine C10_no_confidence_lower_bound (fun _ => .ok [(0 : ℚ)]) (fun _ => [])
    "a".toList "b".toList ?_
  obtain ⟨hm, _⟩ := analyze_origin_made_confidence (fun _ => .ok [(0 : ℚ)]) (fun _ => [])
    "a".toList "b".toList
  have hk : keyword_score (clean_text ("a".toList ++ ' ' :: "b".toList)) = 0 :=
    keyword_score_eq_zero _ (by decide)
  have hC : combined_score (clean_text ("a".toList ++ ' ' :: "b".toList))
      (List.foldl max 0 []) = 0 := by
    simp only [combined_score, List.foldl_nil, hk]
    norm_num
  rw [hm, detect_china_origin_ok _ _ 0 [] rfl, hC, if_neg (by norm_num), if_neg (by norm_num)]

end OriginAnalyzer

namespace OriginAnalyzer

theorem bool_ne_true {b : Bool} (h : b = false) : ¬ b = true := by
  rw [h]
  exact Bool.false_ne_true

theorem any_two_true_left (a b text : List Char) (ha : containsSub a text = true) :
    [a, b].any (fun kw => containsSub kw text) = true := by
  simp [List.any_cons, ha]

theorem any_two_true_right (a b text : List Char) (hb : containsSub b text = true) :
    [a, b].any (fun kw => containsSub kw text) = true := by
  simp [List.any_cons, hb]

theorem any_two_false (a b text : List Char) (ha : containsSub a text = false)
    (hb : containsSub b text = false) :
    ¬ [a, b].any (fun kw => containsSub kw text) = true := by
  simp [List.any_cons, List.any_nil, ha, hb]

/-- C4: for every normalized text, the combined score equals 0.7*S + 0.3*K,
where K is the number of the nine fixed China phrases occurring as exact
substrings (infixes) of the (lowered) text divided by nine, so K lies in
[0,1]. -/
theorem C4_combined_score_formula (text : List Char) (S : ℚ) :
    combined_score text S = 7/10 * S + 3/10 * keyword_score text ∧
    keyword_score text =
      ((china_phrases.countP (fun kw => decide (kw <:+: text.map Char.toLower))) : ℚ) / 9 ∧
    china_phrases.length = 9 ∧
    0 ≤ keyword_score text ∧ keyword_score text ≤ 1 := by
  refine ⟨rfl, ?_, by decide, keyword_score_nonneg text, keyword_score_le_one text⟩
  have hlen : (china_phrases.length : ℚ) = 9 := by norm_num [china_phrases]
  have hcount : (china_phrases.filter
      (fun kw => containsSub kw (text.map Char.toLower))).length
      = china_phrases.countP (fun kw => decide (kw <:+: text.map Char.toLower)) := by
    rw [← List.countP_eq_length_filter]
    congr 1
    funext kw
    exact containsSub_eq_decide kw _
  unfold keyword_score
  rw [hcount, hlen]

/-- C5: supplier-tier classification is decided by ordered rules with first
match winning: "manufacturer" or "factory" gives Tier 1 (Manufacturer); else
"trading company" or "export company" gives Tier 2 (Trading Company); else
"distributor" or "wholesaler" gives Tier 3 (Distributor); else Unknown.  In
particular a text containing both "factory" and "trading company" is
classified Tier 1. -/
theorem C5_supplier_tier_rules (text : List Char) :
    (containsSub "manufacturer".toList text = true ∨ containsSub "factory".toList text = true →
      estimate_supplier_tier text = "Tier 1 (Manufacturer)".toList) ∧
    (containsSub "manufacturer".toList text = false →
      containsSub "factory".toList text = false →
      containsSub "trading company".toList text = true ∨
        containsSub "export company".toList text = true →
      estimate_supplier_tier text = "Tier 2 (Trading Company)".toList) ∧
    (containsSub "manufacturer".toList text = false →
      containsSub "factory".toList text = false →
      containsSub "trading company".toList text = false →
      containsSub "export company".toList text = false →
      containsSub "distributor".toList text = true ∨
        containsSub "wholesaler".toList text = true →
      estimate_supplier_tier text = "Tier 3 (Distributor)".toList) ∧
    (containsSub "manufacturer".toList text = false →
      containsSub "factory".toList text = false →
      containsSub "trading company".toList text = false →
      containsSub "export company".toList text = false →
      containsSub "distributor".toList text = false →
      containsSub "wholesaler".toList text = false →
      estimate_supplier_tier text = "Unknown".toList) ∧
    (containsSub "factory".toList text = true →
      containsSub "trading company".toList text = true →
      estimate_supplier_tier text = "Tier 1 (Manufacturer)".toList) := by
  refine ⟨?_, ?_, ?_, ?_, ?_⟩
  · intro h
    unfold estimate_supplier_tier
    rcases h with h | h
    · rw [if_pos (any_two_true_left _ _ _ h)]
    · rw [if_pos (any_two_true_right _ _ _ h)]
  · intro h1 h2 h3
    unfold estimate_supplier_tier
    rw [if_neg (any_two_false _ _ _ h1 h2)]
    rcases h3 with h | h
    · rw [if_pos (any_two_true_left _ _ _ h)]
    · rw [if_pos (any_two_true_right _ _ _ h)]
  · intro h1 h2 h3 h4 h5
    unfold estimate_supplier_tier
    rw [if_neg (any_two_false _ _ _ h1 h2), if_neg (any_two_false _ _ _ h3 h4)]
    rcases h5 with h | h
    · rw [if_pos (any_two_true_left _ _ _ h)]
    · rw [if_pos (any_two_true_right _ _ _ h)]
  · intro h1 h2 h3 h4 h5 h6
    unfold estimate_supplier_tier
    rw [if_neg (any_two_false _ _ _ h1 h2), if_neg (any_two_false _ _ _ h3 h4),
      if_neg (any_two_false _ _ _ h5 h6)]
  · intro h1 h2
    unfold estimate_supplier_tier
    rw [if_pos (any_two_true_right _ _ _ h1)]

theorem C5_witness :
    containsSub "factory".toList "oem factory trading company".toList = true ∧
    estimate_supplier_tier "oem factory trading company".toList
      = "Tier 1 (Manufacturer)".toList :=
  ⟨by decide,
    (C5_supplier_tier_rules "oem factory trading company".toList).2.2.2.2
      (by decide) (by decide)⟩

/-- C7: production-type classification is decided in fixed priority order:
"oem" gives OEM; else "odm" gives ODM; else "private label" or "white label"
gives Private Label; else Unknown. -/
theorem C7_production_type_rules (text : List Char) :
    (containsSub "oem".toList text = true →
      detect_production_type text = "OEM".toList) ∧
    (containsSub "oem".toList text = false →
      containsSub "odm".toList text = true →
      detect_production_type text = "ODM".toList) ∧
    (containsSub "oem".toList text = false →
      containsSub "odm".toList text = false →
      containsSub "private label".toList text = true ∨
        containsSub "white label".toList text = true →
      detect_production_type text = "Private Label".toList) ∧
    (containsSub "oem".toList text = false →
      containsSub "odm".toList text = false →
      containsSub "private label".toList text = false →
      containsSub "white label".toList text = false →
      detect_production_type text = "Unknown".toList) := by
  refine ⟨?_, ?_, ?_, ?_⟩
  · intro h
    unfold detect_production_type
    rw [if_pos h]
  · intro h1 h2
    unfold detect_production_type
    rw [if_neg (bool_ne_true h1), if_pos h2]
  · intro h1 h2 h3
    unfold detect_production_type
    rw [if_neg (bool_ne_true h1), if_neg (bool_ne_true h2)]
    rcases h3 with h | h
    · rw [if_pos (any_two_true_left _ _ _ h)]
    · rw [if_pos (any_two_true_right _ _ _ h)]
  · intro h1 h2 h3 h4
    unfold detect_production_type
    rw [if_neg (bool_ne_true h1), if_neg (bool_ne_true h2),
      if_neg (any_two_false _ _ _ h3 h4)]

theorem C7_witness :
    detect_production_type "odm private label supplier".toList = "ODM".toList :=
  (C7_production_type_rules "odm private label supplier".toList).2.1
    (by decide) (by decide)

/-- Helper: which branch of `_estimate_supplier_tier` produced Tier 1. -/
theorem estimate_supplier_tier_tier1 (text : List Char)
    (h : estimate_supplier_tier text = "Tier 1 (Manufacturer)".toList) :
    containsSub "manufacturer".toList text = true ∨
      containsSub "factory".toList text = true := by
  unfold estimate_supplier_tier at h
  split_ifs at h with h1 h2 h3
  · simpa using h1
  · exact absurd h (by decide)
  · exact absurd h (by decide)
  · exact absurd h (by decide)

/-- C9: every result carrying supplier_tier = "Tier 1 (Manufacturer)" also
has factory_mentioned = true, because both Tier-1 trigger substrings
("manufacturer" and "factory") are members of the factory-keyword list used
to set that flag. -/
theorem C9_tier1_implies_factory_mentioned (backend : List Char → Except Unit (List ℚ))
    (geo : List Char → List (List Char × List (List Char)))
    (title description : List Char) (d : ChineseDetails)
    (hd : (analyze_origin backend geo title description).details = .chinese d)
    (ht : d.supplier_tier = "Tier 1 (Manufacturer)".toList) :
    d.factory_mentioned = true := by
  rw [analyze_origin_details] at hd
  by_cases hy : (detect_china_origin backend
      (clean_text (title ++ ' ' :: description))).made_in_china = "Yes".toList
  · rw [if_pos hy] at hd
    injection hd with hdd
    subst hdd
    have hor := estimate_supplier_tier_tier1 (clean_text (title ++ ' ' :: description))
      (by simpa [detect_chinese_details] using ht)
    simp only [detect_chinese_details, factory_keywords, List.any_cons, List.any_nil,
      Bool.or_eq_true]
    rcases hor with h | h
    · exact Or.inr (Or.inl h)
    · exact Or.inl h
  · rw [if_neg hy] at hd
    exact absurd hd (by simp)

theorem C9_witness :
    (detect_chinese_details (fun _ => [])
      (clean_text ("factory".toList ++ ' ' :: "".toList))).factory_mentioned = true := by
  have hk : keyword_score (clean_text ("factory".toList ++ ' ' :: "".toList)) = 0 :=
    keyword_score_eq_zero _ (by decide)
  have hC : combined_score (clean_text ("factory".toList ++ ' ' :: "".toList))
      (List.foldl max 1 []) = 7/10 := by
    simp only [combined_score, List.foldl_nil, hk]
    norm_num
  have hy : (detect_china_origin (fun _ => .ok [(1 : ℚ)])
      (clean_text ("factory".toList ++ ' ' :: "".toList))).made_in_china = "Yes".toList := by
    rw [detect_china_origin_ok _ _ 1 [] rfl, hC, if_pos (by norm_num)]
  refine C9_tier1_implies_factory_mentioned (fun _ => .ok [(1 : ℚ)]) (fun _ => [])
    "factory".toList "".toList _ ?_ (by decide)
  rw [analyze_origin_details, if_pos hy]

/-- Helper: the first-non-cn-country specification of `_detect_other_origin`. -/
theorem detect_other_origin_spec (countries : List (List Char × List (List Char))) :
    (∃ pre c cities suf,
        countries = pre ++ (c, cities) :: suf ∧
        (∀ p ∈ pre, p.1.map Char.toLower = "cn".toList) ∧
        c.map Char.toLower ≠ "cn".toList ∧
        detect_other_origin countries = ⟨c, some cities⟩) ∨
    ((∀ p ∈ countries, p.1.map Char.toLower = "cn".toList) ∧
      detect_other_origin countries = ⟨"Unknown".toList, none⟩) := by
  induction countries with
  | nil =>
    right
    exact ⟨by simp, rfl⟩
  | cons q rest ih =>
    by_cases hq : q.1.map Char.toLower = "cn".toList
    · have hfind : detect_other_origin (q :: rest) = detect_other_origin rest := by
        unfold detect_other_origin
        rw [List.find?_cons_of_neg _ (by simp [hq])]
      rcases ih with ⟨pre, c, cities, suf, heq, hpre, hc, hres⟩ | ⟨hall, hres⟩
      · left
        refine ⟨q :: pre, c, cities, suf, by rw [heq]; rfl, ?_, hc, by rw [hfind]; exact hres⟩
        intro p hp
        rcases List.mem_cons.mp hp with h | h
        · rw [h]; exact hq
        · exact hpre p h
      · right
        refine ⟨?_, by rw [hfind]; exact hres⟩
        intro p hp
        rcases List.mem_cons.mp hp with h | h
        · rw [h]; exact hq
        · exact hall p h
    · left
      refine ⟨[], q.1, q.2, rest, by simp, by simp, hq, ?_⟩
      unfold detect_other_origin
      rw [List.find?_cons_of_pos _ (by simpa using hq)]

/-- C6: for every input whose primary outcome is not `Yes`, the secondary
details are the first country returned by place-name recognition whose
country code is not "cn", together with its associated city mentions; if no
such country is recognized, likely_country is "Unknown" (and no cities are
attached). -/
theorem C6_non_yes_details (backend : List Char → Except Unit (List ℚ))
    (geo : List Char → List (List Char × List (List Char)))
    (title description : List Char)
    (h : (analyze_origin backend geo title description).made_in_china ≠ "Yes".toList) :
    (∃ pre c cities suf,
        geo (clean_text (title ++ ' ' :: description)) = pre ++ (c, cities) :: suf ∧
        (∀ p ∈ pre, p.1.map Char.toLower = "cn".toList) ∧
        c.map Char.toLower ≠ "cn".toList ∧
        (analyze_origin backend geo title description).details = .other ⟨c, some cities⟩) ∨
    ((∀ p ∈ geo (clean_text (title ++ ' ' :: description)),
        p.1.map Char.toLower = "cn".toList) ∧
      (analyze_origin backend geo title description).details
        = .other ⟨"Unknown".toList, none⟩) := by
  have hm := (analyze_origin_made_confidence backend geo title description).1
  have hdet := analyze_origin_details backend geo title description
  rw [if_neg (by rw [← hm]; exact h)] at hdet
  rcases detect_other_origin_spec (geo (clean_text (title ++ ' ' :: description))) with
    ⟨pre, c, cities, suf, heq, hpre, hc, hres⟩ | ⟨hall, hres⟩
  · left
    exact ⟨pre, c, cities, suf, heq, hpre, hc, by rw [hdet, hres]⟩
  · right
    exact ⟨hall, by rw [hdet, hres]⟩

theorem C6_witness :
    (∃ pre c cities suf,
        (fun _ : List Char => [("cn".toList, ["shanghai".toList]),
            ("it".toList, ["milan".toList])]) (clean_text ("a".toList ++ ' ' :: "b".toList))
          = pre ++ (c, cities) :: suf ∧
        (∀ p ∈ pre, p.1.map Char.toLower = "cn".toList) ∧
        c.map Char.toLower ≠ "cn".toList ∧
        (analyze_origin (fun _ => .error ())
          (fun _ => [("cn".toList, ["shanghai".toList]), ("it".toList, ["milan".toList])])
          "a".toList "b".toList).details = .other ⟨c, some cities⟩) ∨
    ((∀ p ∈ (fun _ : List Char => [("cn".toList, ["shanghai".toList]),
          ("it".toList, ["milan".toList])]) (clean_text ("a".toList ++ ' ' :: "b".toList)),
        p.1.map Char.toLower = "cn".toList) ∧
      (analyze_origin (fun _ => .error ())
        (fun _ => [("cn".toList, ["shanghai".toList]), ("it".toList, ["milan".toList])])
        "a".toList "b".toList).details = .other ⟨"Unknown".toList, none⟩) := by
  refine C6_non_yes_details (fun _ => .error ())
    (fun _ => [("cn".toList, ["shanghai".toList]), ("it".toList, ["milan".toList])])
    "a".toList "b".toList ?_
  rw [(analyze_origin_made_confidence _ _ _ _).1, detect_china_origin_err _ _ () rfl]
  decide

end OriginAnalyzer
